import Mathlib

/-!
Verification of the tgent suggestion engine against its specification.

The definitions below are a shallow embedding of the Python sources:

* `app/routes/suggestions.py` — the dispatch workflow (`send_suggestion`,
  `send_suggestion_as_reply`, `decline_suggestion`) and the reply-target
  selector heuristic inside `send_suggestion_as_reply`;
* `app/services/chats_service.py` — `update_chat_last_seen_message_id`;
* `app/services/suggestions_service.py` — `update_suggestion_status`,
  `create_suggestion`, and the per-chat body of `generate_suggestions_cycle`;
* `app/openai_client.py` — `OpenAIClient.request_json` (retry loop) and
  `OpenAIClient._request_once` (token-parameter negotiation);
* `app/scheduler.py` — the `run_once` single-flight lock, as a transition
  system over two concurrent callers.

Database reads feeding a per-chat iteration (pending count, cooldown
timestamp) are supplied as environment values; the fallible operations of
steps 3–8 of a cycle (message fetch, completion call, row insert, watermark
update) are supplied as `Except`/`Option` oracles so that exception control
flow is explicit.
-/

namespace Tgent

/-! ### String helpers shared by several routines

`strContains h n` models Python's `n in h` substring test.
`hasQuestionMark` models `re.compile(r"[?？¿]").search`;
`hasWordCharW W` models `re.search(r"\w", text, flags=re.UNICODE)` with the
Unicode word-character class abstracted as the classifier `W`. -/

def charsInfixOf (needle : List Char) : List Char → Bool
  | [] => needle.isEmpty
  | c :: rest => needle.isPrefixOf (c :: rest) || charsInfixOf needle rest

def strContains (haystack needle : String) : Bool :=
  charsInfixOf needle.data haystack.data

/-- Python's `str.startswith(pre)`. -/
def strStartsWith (s pre : String) : Bool :=
  pre.data.isPrefixOf s.data

/-- Python's `str.strip()`: drop whitespace from both ends. -/
def pyStrip (s : String) : String :=
  String.mk (((s.data.dropWhile Char.isWhitespace).reverse.dropWhile Char.isWhitespace).reverse)

def isQuestionChar (c : Char) : Bool :=
  c = '?' || c = '？' || c = '¿'

def hasQuestionMark (s : String) : Bool :=
  s.data.any isQuestionChar

/-- The ASCII word characters `[A-Za-z0-9_]`.  Python's `\w` with
`re.UNICODE` matches the full Unicode word class (letters and digits of
every script, plus the underscore); on ASCII code points it coincides with
this predicate.  The selector model below therefore takes the
word-character classifier as a parameter `W : Char → Bool`, proves its
properties for every classifier, and instantiates at `asciiWordChar` only
where the input text is ASCII. -/
def asciiWordChar (c : Char) : Bool :=
  c.isAlphanum || c = '_'

/-- `re.search(r"\w", s, flags=re.UNICODE) is not None`, with the
word-character class supplied as the classifier `W`. -/
def hasWordCharW (W : Char → Bool) (s : String) : Bool :=
  s.data.any W

/-! ### Reply-target selector (`send_suggestion_as_reply`, fallback scoring loop)

One element of the array parsed from `source_messages_json` is modelled by
`SrcEntry`: `isDict = false` models a non-dict JSON element; `from_me` and
`id` model `m.get("from_me")` / `m.get("id")` with `none` for an absent or
non-`int` field; `text` models `str(m.get("text") or "")` before stripping. -/

structure SrcEntry where
  isDict : Bool := true
  from_me : Option Bool := some false
  id : Option Int := none
  text : String := ""
  deriving Repr, DecidableEq

/-- `score = idx (+50 question) (−25 short) (−25 no word char)` computed on
the stripped text, exactly as in the loop body of
`send_suggestion_as_reply`, with the word-character classifier `W` a
parameter. -/
def msgScoreW (W : Char → Bool) (idx : Nat) (trimmedText : String) : Int :=
  (idx : Int)
    + (if hasQuestionMark trimmedText then 50 else 0)
    - (if trimmedText.length < 3 then 25 else 0)
    - (if !hasWordCharW W trimmedText then 25 else 0)

def msgScore (idx : Nat) (trimmedText : String) : Int :=
  msgScoreW asciiWordChar idx trimmedText

def candScoreW (W : Char → Bool) (idx : Nat) (m : SrcEntry) : Int :=
  msgScoreW W idx (pyStrip m.text)

def candScore (idx : Nat) (m : SrcEntry) : Int :=
  candScoreW asciiWordChar idx m

/-- The `for idx, m in enumerate(src)` loop of `send_suggestion_as_reply`,
carrying `best_score` and `best_id`.  A candidate replaces the incumbent only
when its score is strictly greater (`if score > best_score`). -/
def selectLoopW (W : Char → Bool) : List SrcEntry → Nat → Int → Option Int → Option Int
  | [], _, _, bestId => bestId
  | m :: rest, idx, bestScore, bestId =>
    if !m.isDict then
      selectLoopW W rest (idx + 1) bestScore bestId
    else if m.from_me != some false then
      selectLoopW W rest (idx + 1) bestScore bestId
    else
      match m.id with
      | none => selectLoopW W rest (idx + 1) bestScore bestId
      | some mid =>
        if mid ≤ 0 then
          selectLoopW W rest (idx + 1) bestScore bestId
        else
          let score := candScoreW W idx m
          if bestScore < score then selectLoopW W rest (idx + 1) score (some mid)
          else selectLoopW W rest (idx + 1) bestScore bestId

def selectLoop : List SrcEntry → Nat → Int → Option Int → Option Int :=
  selectLoopW asciiWordChar

/-- The selector over a parsed `source_messages_json` list: `best_score`
starts at `-10_000`, `best_id` at `None`. -/
def bestReplyTargetW (W : Char → Bool) (src : List SrcEntry) : Option Int :=
  selectLoopW W src 0 (-10000) none

def bestReplyTarget (src : List SrcEntry) : Option Int :=
  bestReplyTargetW asciiWordChar src

/-- The qualifying candidate (if any) contributed by one entry: a dict with
`from_me = false` and an integer id `> 0`, paired with its score.  Whether
an entry qualifies does not depend on the classifier `W`; only the score
component does. -/
def entryCandidateW (W : Char → Bool) (idx : Nat) (m : SrcEntry) : Option (Int × Int) :=
  match m.id with
  | none => none
  | some mid =>
    if m.isDict && m.from_me == some false && decide (0 < mid) then
      some (mid, candScoreW W idx m)
    else none

def entryCandidate (idx : Nat) (m : SrcEntry) : Option (Int × Int) :=
  entryCandidateW asciiWordChar idx m

def candidatesFromW (W : Char → Bool) : List SrcEntry → Nat → List (Int × Int)
  | [], _ => []
  | m :: rest, idx => (entryCandidateW W idx m).toList ++ candidatesFromW W rest (idx + 1)

def candidatesFrom : List SrcEntry → Nat → List (Int × Int) :=
  candidatesFromW asciiWordChar

/-- The list of `(id, score)` pairs the selector considers, oldest first. -/
def candidatesW (W : Char → Bool) (src : List SrcEntry) : List (Int × Int) :=
  candidatesFromW W src 0

def candidates (src : List SrcEntry) : List (Int × Int) :=
  candidatesW asciiWordChar src

/-- The accumulator loop restricted to the flattened candidate list. -/
def argLoop : List (Int × Int) → Int → Option Int → Option Int
  | [], _, bestId => bestId
  | (i, s) :: rest, bestScore, bestId =>
    if bestScore < s then argLoop rest s (some i) else argLoop rest bestScore bestId

/-! ### Suggestion store rows and status updates -/

inductive SuggestionStatus
  | pending
  | sent
  | declined
  | failed
  deriving Repr, DecidableEq

/-- The columns of a `suggestions` row that the dispatch workflow reads or
writes.  `srcJson` is the parsed `source_messages_json` column: `none` models
a string `json.loads` fails on, `some xs` the parsed array. -/
structure SuggRow where
  id : Int
  chat_id : Int
  suggested_text : String
  status : SuggestionStatus
  error : Option String := none
  srcJson : Option (List SrcEntry) := some []
  deriving Repr, DecidableEq

/-- `update_suggestion_status` (suggestions_service): an unconditional
`UPDATE suggestions SET status, error WHERE id = ?` — no guard on the
current status. -/
def update_suggestion_status (s : SuggRow) (status : SuggestionStatus)
    (error : Option String := none) : SuggRow :=
  { s with status := status, error := error }

/-- `update_chat_last_seen_message_id` (chats_service): an unconditional
`UPDATE chats SET last_seen_message_id = ? WHERE id = ?` — the stored
watermark is simply overwritten with the argument. -/
def update_chat_last_seen_message_id (_current : Option Int) (v : Int) : Option Int :=
  some v

/-! ### Dispatch workflow (`app/routes/suggestions.py`)

`World` is the slice of database state a dispatch request touches: the
suggestion row `get_suggestion` returns for the requested id (or `none`),
and the watermark column of that suggestion's chat.  The messaging
connector's `send_message` is an oracle `Except String Int`: an exception
message, or the id attribute of the returned message (`0` when absent).
Each route returns the new `World` together with the list of send calls it
actually issued. -/

structure World where
  sugg : Option SuggRow
  last_seen_message_id : Option Int
  deriving Repr, DecidableEq

structure SendAction where
  chat_id : Int
  text : String
  reply_to : Option Int
  deriving Repr, DecidableEq

/-- `decline_suggestion`: updates the row to `declined` with no check of the
current status. -/
def decline_suggestion (w : World) : World :=
  { w with sugg := w.sugg.map (fun s => update_suggestion_status s .declined) }

/-- `send_suggestion`: pending-only guard, empty-text failure path, then the
send itself with watermark advance and status update. -/
def send_suggestion (w : World) (tg : Except String Int) : World × List SendAction :=
  match w.sugg with
  | none => (w, [])
  | some s =>
    if s.status ≠ .pending then (w, [])
    else
      let text := pyStrip s.suggested_text
      if text = "" then
        ({ w with
            sugg := some (update_suggestion_status s .failed
              (some "Empty suggested_text; nothing to send.")) }, [])
      else
        match tg with
        | .error e =>
          ({ w with sugg := some (update_suggestion_status s .failed (some e)) },
           [⟨s.chat_id, text, none⟩])
        | .ok msg_id =>
          let wm :=
            if msg_id ≠ 0 then update_chat_last_seen_message_id w.last_seen_message_id msg_id
            else w.last_seen_message_id
          ({ w with
              sugg := some (update_suggestion_status s .sent),
              last_seen_message_id := wm },
           [⟨s.chat_id, text, none⟩])

/-- `send_suggestion_as_reply`: same guards, then the reply-target selector
over the stored source messages (the route's `SELECT` does not return a
`reply_to_message_id` column, so `row.get("reply_to_message_id")` is always
absent and the fallback scoring loop decides); with no qualifying candidate
the request is delegated to `send_suggestion`. -/
def send_suggestion_as_reply (w : World) (tg : Except String Int) :
    World × List SendAction :=
  match w.sugg with
  | none => (w, [])
  | some s =>
    if s.status ≠ .pending then (w, [])
    else
      let text := pyStrip s.suggested_text
      if text = "" then
        ({ w with
            sugg := some (update_suggestion_status s .failed
              (some "Empty suggested_text; nothing to send.")) }, [])
      else
        let reply_to : Option Int :=
          match s.srcJson with
          | none => none
          | some src => bestReplyTarget src
        match reply_to with
        | none => send_suggestion w tg
        | some rid =>
          match tg with
          | .error e =>
            ({ w with sugg := some (update_suggestion_status s .failed (some e)) },
             [⟨s.chat_id, text, some rid⟩])
          | .ok msg_id =>
            let wm :=
              if msg_id ≠ 0 then update_chat_last_seen_message_id w.last_seen_message_id msg_id
              else w.last_seen_message_id
            ({ w with
                sugg := some (update_suggestion_status s .sent),
                last_seen_message_id := wm },
             [⟨s.chat_id, text, some rid⟩])

/-! ### Cycle engine (`generate_suggestions_cycle`) -/

structure SettingsRecord where
  k_messages : Nat := 20
  n_minutes : Nat := 5
  max_suggestions_per_chat : Nat := 1
  cooldown_minutes : Nat := 0
  deriving Repr, DecidableEq

structure ChatRecord where
  id : Int
  title : String := ""
  language_hint : Option String := none
  last_seen_message_id : Option Int := none
  deriving Repr, DecidableEq

/-- A fetched connector message as the cycle reads it: `.id`, `.message`
(text), `.out` (from-me flag) and the formatted date. -/
structure RawMsg where
  id : Int
  text : String
  from_me : Bool
  date_iso : String := ""
  deriving Repr, DecidableEq

structure SourceMessage where
  id : Int
  date_iso : String
  from_me : Bool
  sender_name : Option String
  text : String
  deriving Repr, DecidableEq

structure ReplySuggestion where
  suggested_text : String
  ru_translation : String
  reply_to_message_id : Option Int := none
  deriving Repr, DecidableEq

/-- A database write the cycle performs, in order. -/
inductive DbAction
  | createSuggestion (chat_id : Int) (payload : List SourceMessage)
      (suggested_text ru_translation : String)
      (status : SuggestionStatus) (error : Option String)
  | setWatermark (chat_id : Int) (v : Int)
  deriving Repr, DecidableEq

/-- The environment one per-chat iteration consumes.  `pending_count` and
`last_created` are the step-1/2 database reads; `fetch` and `llm` are the
fallible connector/backend calls of steps 3 and 7; the `*_err` fields make
the step-8 writes (and the best-effort failure-record insert) fallible:
`some e` means that call raises with message `e`. -/
structure ChatEnv where
  pending_count : Nat
  now : Int := 0
  last_created : Option Int := none
  fetch : Except String (List RawMsg) := .ok []
  llm : Except String ReplySuggestion := .error "not called"
  insert_err : Option String := none
  watermark_err : Option String := none
  failed_insert_err : Option String := none
  deriving Repr

/-- Step 4: keep only messages with non-empty stripped text, building the
`SourceMessage` snapshots. -/
def buildSource (msgs : List RawMsg) : List SourceMessage :=
  msgs.filterMap (fun m =>
    let text := pyStrip m.text
    if text = "" then none
    else some { id := m.id, date_iso := m.date_iso, from_me := m.from_me,
                sender_name := some (if m.from_me then "me" else "other"),
                text := text })

/-- `max((m.id for m in source), default=0)`. -/
def latestId : List SourceMessage → Int
  | [] => 0
  | m :: rest => rest.foldl (fun a x => max a x.id) m.id

/-- Step 2 condition: `cooldown_minutes > 0`, a previous suggestion exists,
and `now - last_created < timedelta(minutes=cooldown)` (timestamps in
seconds). -/
def cooldownBlocked (st : SettingsRecord) (env : ChatEnv) : Bool :=
  decide (0 < st.cooldown_minutes) &&
    match env.last_created with
    | none => false
    | some t => decide (env.now - t < (st.cooldown_minutes : Int) * 60)

/-- The body of one per-chat iteration of `generate_suggestions_cycle`
(the contents of the `try` block): the database writes performed, paired
with `some e` when an exception with message `e` escapes the body. -/
def processChatBody (st : SettingsRecord) (chat : ChatRecord) (env : ChatEnv) :
    List DbAction × Option String :=
  if st.max_suggestions_per_chat ≤ env.pending_count then ([], none)
  else if cooldownBlocked st env then ([], none)
  else
    match env.fetch with
    | .error e => ([], some e)
    | .ok messages =>
      if messages = [] then ([], none)
      else
        let source := buildSource messages
        if source = [] then ([], none)
        else
          let latest := latestId source
          if (match chat.last_seen_message_id with
              | some seen => decide (latest ≤ seen)
              | none => false) then ([], none)
          else if (source.getLast?).map SourceMessage.from_me = some true then
            match env.watermark_err with
            | some e => ([], some e)
            | none => ([.setWatermark chat.id latest], none)
          else
            match env.llm with
            | .error e => ([], some e)
            | .ok reply =>
              match env.insert_err with
              | some e => ([], some e)
              | none =>
                let created : DbAction :=
                  .createSuggestion chat.id source reply.suggested_text
                    reply.ru_translation .pending none
                match env.watermark_err with
                | some e => ([created], some e)
                | none => ([created, .setWatermark chat.id latest], none)

/-- The per-chat failure record inserted by the `except` handler. -/
def failedRecord (chat : ChatRecord) (e : String) : DbAction :=
  .createSuggestion chat.id [] "" "" .failed (some e)

/-- One per-chat iteration with its `try/except` failure isolation: an
exception from the body is converted into a `failed` suggestion record
(best effort — if that insert also raises, it is swallowed). -/
def processChat (st : SettingsRecord) (chat : ChatRecord) (env : ChatEnv) :
    List DbAction :=
  match processChatBody st chat env with
  | (acts, none) => acts
  | (acts, some e) =>
    match env.failed_insert_err with
    | some _ => acts
    | none => acts ++ [failedRecord chat e]

/-- `generate_suggestions_cycle`: precondition gates, then the sequential
per-chat loop.  Each selected chat is paired with the environment its
iteration consumes. -/
def generate_suggestions_cycle (tg_authorized openai_enabled : Bool)
    (st : SettingsRecord) (chats : List (ChatRecord × ChatEnv)) : List DbAction :=
  if !tg_authorized then []
  else if !openai_enabled then []
  else if chats.isEmpty then []
  else (chats.map (fun ce => processChat st ce.1 ce.2)).flatten

/-! ### Completion backend client: retry loop (`OpenAIClient.request_json`)

One attempt is a call to `_request_once`; its outcome for attempt number `i`
is supplied by the oracle `outcomes i`.  The caught exception classes
(`RateLimitError`, `APITimeoutError`, `APIError`, `json.JSONDecodeError`,
`ValueError` — the latter covering empty/refused content and pydantic
validation) are the transient errors. -/

inductive TransientError
  | rateLimit
  | apiTimeout
  | apiError
  | jsonDecode
  | validationError
  deriving Repr, DecidableEq

inductive RequestError
  | notConfigured
  | transient (e : TransientError)
  deriving Repr, DecidableEq

/-- `delay = min(8.0, 2.0 ** attempt)`, in seconds. -/
def backoffDelay (attempt : Nat) : Nat :=
  min 8 (2 ^ attempt)

/-- The `for attempt in range(self.max_retries + 1)` loop, starting at
attempt number `attempt` with `fuel` further attempts allowed after the
current one.  Returns the final outcome, the list of backoff sleeps
performed (the loop sleeps after every failed attempt, including the last
one before re-raising), and the number of attempts made. -/
def runAttempts {α : Type} (outcomes : Nat → Except TransientError α) :
    Nat → Nat → Except TransientError α × List Nat × Nat
  | attempt, fuel =>
    match outcomes attempt with
    | .ok v => (.ok v, [], 1)
    | .error e =>
      match fuel with
      | 0 => (.error e, [backoffDelay attempt], 1)
      | f + 1 =>
        let r := runAttempts outcomes (attempt + 1) f
        (r.1, backoffDelay attempt :: r.2.1, r.2.2 + 1)

/-- `request_json`: an unconfigured client (missing API key) raises
`RuntimeError` before any attempt; otherwise the retry loop runs with
`max_retries + 1` total attempts and re-raises the last transient error on
exhaustion. -/
def request_json {α : Type} (enabled : Bool) (max_retries : Nat)
    (outcomes : Nat → Except TransientError α) :
    Except RequestError α × List Nat × Nat :=
  if enabled then
    match runAttempts outcomes 0 max_retries with
    | (.ok v, delays, attempts) => (.ok v, delays, attempts)
    | (.error e, delays, attempts) => (.error (.transient e), delays, attempts)
  else (.error .notConfigured, [], 0)

/-! ### Completion backend client: request shaping (`OpenAIClient._request_once`)

The token-budget parameter name is guessed from the model name, cached in
the `_token_param` attribute, and renegotiated on an explicit
`BadRequestError` naming the wrong parameter.  The backend is an oracle
from the request shape actually sent to its response. -/

inductive TokenParam
  | max_tokens
  | max_completion_tokens
  deriving Repr, DecidableEq

/-- The per-instance client state: the configured model name and the cached
`_token_param` attribute (absent until first use). -/
structure ClientState where
  model : String
  token_param : Option TokenParam := none
  deriving Repr, DecidableEq

/-- `"max_completion_tokens" if self.model.startswith("gpt-5") else "max_tokens"`. -/
def guessTokenParam (model : String) : TokenParam :=
  if strStartsWith model "gpt-5" then .max_completion_tokens else .max_tokens

/-- The request shape `_request_once` sends: which token-budget parameter
carries the output budget, whether `temperature` is included, and the
budget value. -/
structure BackendCall where
  token_param : TokenParam
  include_temperature : Bool
  max_out : Nat
  deriving Repr, DecidableEq

/-- A backend response: success, a `BadRequestError` with its message, or
any other request failure (the classes `request_json` retries). -/
inductive BackendResp (α : Type)
  | ok (v : α)
  | badRequest (msg : String)
  | failed (e : TransientError)
  deriving Repr

/-- How `_request_once` finishes: the parsed value, a re-raised
`BadRequestError`, or a propagated transient failure. -/
inductive OnceResult (α : Type)
  | ok (v : α)
  | badRequest (msg : String)
  | failed (e : TransientError)
  deriving Repr

def liftResp {α : Type} : BackendResp α → OnceResult α
  | .ok v => .ok v
  | .badRequest m => .badRequest m
  | .failed e => .failed e

/-- An ASCII apostrophe, as it occurs in the backend's rejection messages. -/
def apos : String :=
  String.singleton (Char.ofNat 39)

def needle_mt_not_supported : String := "max_tokens" ++ apos ++ " is not supported"
def needle_use_mct : String := "Use " ++ apos ++ "max_completion_tokens" ++ apos ++ " instead"
def needle_mct_not_supported : String := "max_completion_tokens" ++ apos ++ " is not supported"
def needle_use_mt : String := "Use " ++ apos ++ "max_tokens" ++ apos ++ " instead"

/-- The request shape the client sends given its cached state: the cached
`_token_param` if set, otherwise the model-name guess; `temperature` is
included unless the model starts with `gpt-5`; the output budget is 2000
for `gpt-5` models and 600 otherwise. -/
def mkCall (st : ClientState) : BackendCall :=
  ⟨(match st.token_param with
    | some t => t
    | none => guessTokenParam st.model),
   !(strStartsWith st.model "gpt-5"),
   if strStartsWith st.model "gpt-5" then 2000 else 600⟩

/-- `_request_once`.  Returns the outcome, the updated client state (the
cached `_token_param`), and the backend calls issued in order.  On a
`BadRequestError` naming the wrong token-budget parameter, the cached
choice is switched and the call re-issued exactly once with the other
parameter name; on a temperature rejection the parameter is dropped and the
call re-issued once; any other `BadRequestError` is re-raised, as is any
failure of the re-issued call. -/
def request_once {α : Type} (st : ClientState) (backend : BackendCall → BackendResp α) :
    OnceResult α × ClientState × List BackendCall :=
  let call := mkCall st
  let st1 : ClientState := { st with token_param := some call.token_param }
  match backend call with
  | .ok v => (.ok v, st1, [call])
  | .failed e => (.failed e, st1, [call])
  | .badRequest msg =>
    if strContains msg "max_tokens" && strContains msg "max_completion_tokens" then
      if strContains msg needle_mt_not_supported || strContains msg needle_use_mct then
        let st2 : ClientState := { st1 with token_param := some .max_completion_tokens }
        let call2 : BackendCall := { call with token_param := .max_completion_tokens }
        (liftResp (backend call2), st2, [call, call2])
      else if strContains msg needle_mct_not_supported || strContains msg needle_use_mt then
        let st2 : ClientState := { st1 with token_param := some .max_tokens }
        let call2 : BackendCall := { call with token_param := .max_tokens }
        (liftResp (backend call2), st2, [call, call2])
      else (.badRequest msg, st1, [call])
    else if strContains msg "temperature" &&
        (strContains msg "Only the default" || strContains msg "unsupported") then
      let call2 : BackendCall := { call with include_temperature := false }
      (liftResp (backend call2), st1, [call, call2])
    else (.badRequest msg, st1, [call])

/-! ### Scheduler single-flight lock (`SuggestionScheduler.run_once`)

`run_once` wraps the whole cycle-engine invocation in `async with
self._lock` where `_lock` is a non-reentrant `asyncio.Lock`.  Two
concurrent callers are modelled as tasks `false` and `true`; each moves
`idle → waiting` (calling `run_once`), `waiting → body` (acquiring the free
lock and starting a fresh `generate_suggestions_cycle`, counted in
`cycles`), and `body → done` (finishing the cycle and releasing). -/

inductive TaskPc
  | idle
  | waiting
  | body
  | done
  deriving Repr, DecidableEq

structure SchedState where
  pc : Bool → TaskPc
  lock : Option Bool
  cycles : Bool → Nat

def SchedState.start : SchedState :=
  ⟨fun _ => .idle, none, fun _ => 0⟩

inductive SchedStep : SchedState → SchedState → Prop
  | call (i : Bool) (s : SchedState) : s.pc i = .idle →
      SchedStep s { s with pc := Function.update s.pc i .waiting }
  | acquire (i : Bool) (s : SchedState) : s.pc i = .waiting → s.lock = none →
      SchedStep s { s with pc := Function.update s.pc i .body,
                           lock := some i,
                           cycles := Function.update s.cycles i (s.cycles i + 1) }
  | release (i : Bool) (s : SchedState) : s.pc i = .body →
      SchedStep s { s with pc := Function.update s.pc i .done, lock := none }

inductive SchedReachable : SchedState → Prop
  | start : SchedReachable SchedState.start
  | step {s t : SchedState} : SchedReachable s → SchedStep s t → SchedReachable t



/-! ### Concrete instances used in the theorems below -/

/-- `[{id:1,from_me:false,text:"hi"}, {id:2,from_me:false,text:"are you free?"}]`. -/
def selectorExample1 : List SrcEntry :=
  [{ id := some 1, text := "hi" }, { id := some 2, text := "are you free?" }]

/-- `[{id:1,from_me:false,text:"ok"}, {id:2,from_me:false,text:"."}]`. -/
def selectorExample2 : List SrcEntry :=
  [{ id := some 1, text := "ok" }, { id := some 2, text := "." }]

/-- A source list with two qualifying candidates of equal maximal score 25:
id 1 at index 0 with text `"x?"` (0 + 50 question − 25 short), and id 26 at
index 25 with text `"hello"` (25 + 0), separated by 24 non-dict entries. -/
def tieExample : List SrcEntry :=
  [{ id := some 1, text := "x?" }] ++ List.replicate 24 { isDict := false } ++
    [{ id := some 26, text := "hello" }]

/-- The backend's canonical wrong-token-parameter rejection message. -/
def wrongParamMsg : String :=
  "Unsupported parameter: " ++ apos ++ "max_tokens" ++ apos ++
    " is not supported with this model. Use " ++ apos ++ "max_completion_tokens" ++ apos ++ " instead."

/-- A backend that rejects `max_tokens` with `wrongParamMsg` and accepts
`max_completion_tokens`. -/
def negotiationBackend : BackendCall → BackendResp Nat := fun c =>
  match c.token_param with
  | .max_tokens => .badRequest wrongParamMsg
  | .max_completion_tokens => .ok 7

/-- Whether a cycle write inserts a suggestion row with status `pending`. -/
def isPendingCreate : DbAction → Bool
  | .createSuggestion _ _ _ _ .pending _ => true
  | _ => false

/-- Whether a cycle write inserts a suggestion row (any status). -/
def isCreate : DbAction → Bool
  | .createSuggestion _ _ _ _ _ _ => true
  | _ => false

/-- The number of `pending` suggestion rows a list of cycle writes inserts. -/
def pendingCreatedCount (acts : List DbAction) : Nat :=
  (acts.filter isPendingCreate).length

/-! ## Theorems -/

/-! ### Reply-target selector -/

theorem selectLoopW_eq_argLoop (W : Char → Bool) (src : List SrcEntry) :
    ∀ idx b bid, selectLoopW W src idx b bid = argLoop (candidatesFromW W src idx) b bid := by
  induction src with
  | nil => intro idx b bid; rfl
  | cons m rest ih =>
    intro idx b bid
    by_cases hd : m.isDict
    · by_cases hf : m.from_me = some false
      · cases hid : m.id with
        | none =>
          simp [selectLoopW, candidatesFromW, entryCandidateW, hd, hf, hid, ih]
        | some mid =>
          by_cases hpos : mid ≤ 0
          · have : ¬ (0 : Int) < mid := not_lt.mpr hpos
            simp [selectLoopW, candidatesFromW, entryCandidateW, hd, hf, hid, hpos, this, ih]
          · have h0 : (0 : Int) < mid := lt_of_not_ge hpos
            simp [selectLoopW, candidatesFromW, entryCandidateW, hd, hf, hid, hpos, h0, ih,
              argLoop]
      · simp [selectLoopW, candidatesFromW, entryCandidateW, hd, hf, ih, bne]
        cases hid : m.id <;> simp [hf, ih]
    · simp [selectLoopW, candidatesFromW, entryCandidateW, hd, ih]
      cases hid : m.id <;> simp [hd, ih]

theorem selectLoop_eq_argLoop (src : List SrcEntry) :
    ∀ idx b bid, selectLoop src idx b bid = argLoop (candidatesFrom src idx) b bid :=
  selectLoopW_eq_argLoop asciiWordChar src

theorem argLoop_le (l : List (Int × Int)) :
    ∀ b bid, (∀ p ∈ l, p.2 ≤ b) → argLoop l b bid = bid := by
  induction l with
  | nil => intro b bid _; rfl
  | cons q rest ih =>
    intro b bid h
    obtain ⟨i, s⟩ := q
    have hs : s ≤ b := h (i, s) (List.mem_cons_self _ _)
    have : ¬ b < s := not_lt.mpr hs
    simp only [argLoop, if_neg this]
    exact ih b bid (fun p hp => h p (List.mem_cons_of_mem _ hp))

theorem argLoop_spec (l : List (Int × Int)) :
    ∀ b bid,
      (argLoop l b bid = bid ∧ ∀ p ∈ l, p.2 ≤ b) ∨
      (∃ p ∈ l, argLoop l b bid = some p.1 ∧ b < p.2 ∧ ∀ q ∈ l, q.2 ≤ p.2) := by
  induction l with
  | nil => intro b bid; left; exact ⟨rfl, by simp⟩
  | cons q rest ih =>
    intro b bid
    obtain ⟨i, s⟩ := q
    by_cases hb : b < s
    · simp only [argLoop, if_pos hb]
      rcases ih s (some i) with ⟨hres, hle⟩ | ⟨p, hp, hres, hlt, hle⟩
      · right
        refine ⟨(i, s), List.mem_cons_self _ _, hres, hb, ?_⟩
        intro q hq
        rcases List.mem_cons.mp hq with h | h
        · simp [h]
        · exact hle q h
      · right
        refine ⟨p, List.mem_cons_of_mem _ hp, hres, lt_trans hb hlt, ?_⟩
        intro q hq
        rcases List.mem_cons.mp hq with h | h
        · subst h; exact le_of_lt hlt
        · exact hle q h
    · simp only [argLoop, if_neg hb]
      rcases ih b bid with ⟨hres, hle⟩ | ⟨p, hp, hres, hlt, hle⟩
      · left
        refine ⟨hres, ?_⟩
        intro p hp
        rcases List.mem_cons.mp hp with h | h
        · subst h; exact not_lt.mp hb
        · exact hle p h
      · right
        refine ⟨p, List.mem_cons_of_mem _ hp, hres, hlt, ?_⟩
        intro q hq
        rcases List.mem_cons.mp hq with h | h
        · subst h; exact le_trans (not_lt.mp hb) (le_of_lt hlt)
        · exact hle q h

theorem argLoop_firstmax (l₁ : List (Int × Int)) :
    ∀ (i s : Int) (l₂ : List (Int × Int)) (b : Int) (bid : Option Int),
      b < s → (∀ q ∈ l₁, q.2 < s) → (∀ q ∈ l₂, q.2 ≤ s) →
      argLoop (l₁ ++ (i, s) :: l₂) b bid = some i := by
  induction l₁ with
  | nil =>
    intro i s l₂ b bid hb _ hl₂
    simp only [List.nil_append, argLoop, if_pos hb]
    exact argLoop_le l₂ s (some i) hl₂
  | cons q rest ih =>
    intro i s l₂ b bid hb hl₁ hl₂
    obtain ⟨j, t⟩ := q
    have ht : t < s := hl₁ (j, t) (List.mem_cons_self _ _)
    have hrest : ∀ q ∈ rest, q.2 < s := fun q hq => hl₁ q (List.mem_cons_of_mem _ hq)
    by_cases hbt : b < t
    · simp only [List.cons_append, argLoop, if_pos hbt]
      exact ih i s l₂ t (some j) ht hrest hl₂
    · simp only [List.cons_append, argLoop, if_neg hbt]
      exact ih i s l₂ b bid hb hrest hl₂

theorem msgScoreW_gt_floor (W : Char → Bool) (idx : Nat) (t : String) :
    -10000 < msgScoreW W idx t := by
  unfold msgScoreW
  split_ifs <;> omega

theorem msgScore_gt_floor (idx : Nat) (t : String) : -10000 < msgScore idx t :=
  msgScoreW_gt_floor asciiWordChar idx t

theorem candidatesFromW_score_gt_floor (W : Char → Bool) (src : List SrcEntry) :
    ∀ idx p, p ∈ candidatesFromW W src idx → -10000 < p.2 := by
  induction src with
  | nil => intro idx p hp; simp [candidatesFromW] at hp
  | cons m rest ih =>
    intro idx p hp
    simp only [candidatesFromW, List.mem_append, Option.mem_toList] at hp
    rcases hp with h | h
    · unfold entryCandidateW at h
      rcases hm : m.id with _ | mid <;> simp [hm] at h
      rcases h with ⟨-, hp⟩
      rw [← hp]
      exact msgScoreW_gt_floor W idx (pyStrip m.text)
    · exact ih (idx + 1) p h

theorem candidatesFrom_score_gt_floor (src : List SrcEntry) :
    ∀ idx p, p ∈ candidatesFrom src idx → -10000 < p.2 :=
  candidatesFromW_score_gt_floor asciiWordChar src

theorem bestReplyTargetW_eq_argLoop (W : Char → Bool) (src : List SrcEntry) :
    bestReplyTargetW W src = argLoop (candidatesW W src) (-10000) none :=
  selectLoopW_eq_argLoop W src 0 (-10000) none

theorem bestReplyTarget_eq_argLoop (src : List SrcEntry) :
    bestReplyTarget src = argLoop (candidates src) (-10000) none :=
  selectLoopW_eq_argLoop asciiWordChar src 0 (-10000) none

/-! Congruence in the word-character classifier: two classifiers that agree
on every character of the input texts give the same scores, candidates and
selection, and the set of considered ids does not depend on the classifier
at all. -/

theorem listAny_congr (W W2 : Char → Bool) :
    ∀ l : List Char, (∀ c ∈ l, W c = W2 c) → l.any W = l.any W2 := by
  intro l
  induction l with
  | nil => intro _; rfl
  | cons c cs ih =>
    intro h
    simp only [List.any_cons]
    rw [h c (List.mem_cons_self _ _), ih (fun d hd => h d (List.mem_cons_of_mem _ hd))]

theorem mem_of_mem_dropWhile (p : Char → Bool) :
    ∀ (l : List Char) (c : Char), c ∈ l.dropWhile p → c ∈ l := by
  intro l
  induction l with
  | nil => intro c h; simp at h
  | cons a as ih =>
    intro c h
    by_cases hp : p a
    · simp only [List.dropWhile_cons, hp, if_true] at h
      exact List.mem_cons_of_mem _ (ih c h)
    · simp only [List.dropWhile_cons, hp] at h
      simpa using h

theorem mem_of_mem_pyStrip (s : String) (c : Char) (h : c ∈ (pyStrip s).data) :
    c ∈ s.data := by
  unfold pyStrip at h
  dsimp only at h
  rw [List.mem_reverse] at h
  have h1 := mem_of_mem_dropWhile _ _ _ h
  rw [List.mem_reverse] at h1
  exact mem_of_mem_dropWhile _ _ _ h1

theorem hasWordCharW_congr (W W2 : Char → Bool) (s : String)
    (h : ∀ c ∈ s.data, W c = W2 c) : hasWordCharW W s = hasWordCharW W2 s :=
  listAny_congr W W2 s.data h

theorem candScoreW_congr (W W2 : Char → Bool) (idx : Nat) (m : SrcEntry)
    (h : ∀ c ∈ m.text.data, W c = W2 c) :
    candScoreW W idx m = candScoreW W2 idx m := by
  unfold candScoreW msgScoreW
  rw [hasWordCharW_congr W W2 (pyStrip m.text)
    (fun c hc => h c (mem_of_mem_pyStrip m.text c hc))]

theorem entryCandidateW_congr (W W2 : Char → Bool) (idx : Nat) (m : SrcEntry)
    (h : ∀ c ∈ m.text.data, W c = W2 c) :
    entryCandidateW W idx m = entryCandidateW W2 idx m := by
  unfold entryCandidateW
  rcases hid : m.id with _ | mid
  · rfl
  · rw [candScoreW_congr W W2 idx m h]

theorem candidatesFromW_congr (W W2 : Char → Bool) (src : List SrcEntry)
    (h : ∀ m ∈ src, ∀ c ∈ m.text.data, W c = W2 c) :
    ∀ idx, candidatesFromW W src idx = candidatesFromW W2 src idx := by
  induction src with
  | nil => intro idx; rfl
  | cons m rest ih =>
    intro idx
    unfold candidatesFromW
    rw [entryCandidateW_congr W W2 idx m (h m (List.mem_cons_self _ _)),
      ih (fun m2 hm2 => h m2 (List.mem_cons_of_mem _ hm2)) (idx + 1)]

theorem bestReplyTargetW_congr (W W2 : Char → Bool) (src : List SrcEntry)
    (h : ∀ m ∈ src, ∀ c ∈ m.text.data, W c = W2 c) :
    bestReplyTargetW W src = bestReplyTargetW W2 src := by
  rw [bestReplyTargetW_eq_argLoop, bestReplyTargetW_eq_argLoop]
  unfold candidatesW
  rw [candidatesFromW_congr W W2 src h 0]

theorem candidatesFromW_map_fst (W W2 : Char → Bool) (src : List SrcEntry) :
    ∀ idx, (candidatesFromW W src idx).map Prod.fst =
      (candidatesFromW W2 src idx).map Prod.fst := by
  induction src with
  | nil => intro idx; rfl
  | cons m rest ih =>
    intro idx
    unfold candidatesFromW
    rw [List.map_append, List.map_append, ih (idx + 1)]
    congr 1
    unfold entryCandidateW
    rcases hid : m.id with _ | mid
    · rfl
    · by_cases hc : (m.isDict && m.from_me == some false && decide (0 < mid)) = true
      · simp [hc]
      · simp [hc]

/-- C6: the reply-target selector considers exactly the source messages with
`from_me = false` and integer id `> 0` — a set independent of the
word-character classifier — scores each as
`index + 50·question − 25·short − 25·no-word-character`, and returns an id
of maximal score.  The Unicode class of `re` `\w` is abstracted as the
classifier `W`: the structural conjuncts hold for every classifier, and the
ASCII examples (`[{id:1,text:"hi"},{id:2,text:"are you free?"}]` → id 2,
`[{id:1,text:"ok"},{id:2,text:"."}]` → id 1) hold for every classifier that
agrees with `[A-Za-z0-9_]` on ASCII code points, as Python's `\w` does.
With no qualifying candidate the selector returns nothing — a
classifier-independent condition — and `send_suggestion_as_reply` delegates
to the plain `send_suggestion`. -/
theorem reply_target_selector_spec :
    (∀ W : Char → Bool, (∀ c : Char, c.toNat < 128 → W c = asciiWordChar c) →
      bestReplyTargetW W selectorExample1 = some 2 ∧
      bestReplyTargetW W selectorExample2 = some 1) ∧
    (∀ (W : Char → Bool) (src : List SrcEntry),
      bestReplyTargetW W src = none ↔ candidatesW W src = []) ∧
    (∀ (W : Char → Bool) (src : List SrcEntry) (i : Int),
      bestReplyTargetW W src = some i →
      ∃ p ∈ candidatesW W src, p.1 = i ∧ ∀ q ∈ candidatesW W src, q.2 ≤ p.2) ∧
    (∀ (W W2 : Char → Bool) (src : List SrcEntry),
      (candidatesW W src).map Prod.fst = (candidatesW W2 src).map Prod.fst) ∧
    (∀ (W : Char → Bool) (w : World) (s : SuggRow) (src : List SrcEntry)
        (tg : Except String Int),
      w.sugg = some s → s.status = .pending → ¬ pyStrip s.suggested_text = "" →
      s.srcJson = some src → candidatesW W src = [] →
      send_suggestion_as_reply w tg = send_suggestion w tg) := by
  have hids : ∀ (W W2 : Char → Bool) (src : List SrcEntry),
      (candidatesW W src).map Prod.fst = (candidatesW W2 src).map Prod.fst :=
    fun W W2 src => candidatesFromW_map_fst W W2 src 0
  refine ⟨?_, ?_, ?_, hids, ?_⟩
  · intro W hW
    have ha1 : ∀ m ∈ selectorExample1, ∀ c ∈ m.text.data, c.toNat < 128 := by decide
    have ha2 : ∀ m ∈ selectorExample2, ∀ c ∈ m.text.data, c.toNat < 128 := by decide
    constructor
    · rw [bestReplyTargetW_congr W asciiWordChar selectorExample1
        (fun m hm c hc => hW c (ha1 m hm c hc))]
      decide
    · rw [bestReplyTargetW_congr W asciiWordChar selectorExample2
        (fun m hm c hc => hW c (ha2 m hm c hc))]
      decide
  · intro W src
    rw [bestReplyTargetW_eq_argLoop]
    constructor
    · intro hnone
      rcases argLoop_spec (candidatesW W src) (-10000) none with ⟨-, hle⟩ | ⟨p, hp, hres, -, -⟩
      · cases hc : candidatesW W src with
        | nil => rfl
        | cons p rest =>
          have hmem : p ∈ candidatesW W src := by rw [hc]; exact List.mem_cons_self _ _
          have := candidatesFromW_score_gt_floor W src 0 p hmem
          exact absurd (hle p hmem) (not_le.mpr this)
      · rw [hres] at hnone; cases hnone
    · intro hc
      rw [hc]; rfl
  · intro W src i hsome
    rw [bestReplyTargetW_eq_argLoop] at hsome
    rcases argLoop_spec (candidatesW W src) (-10000) none with ⟨hres, -⟩ | ⟨p, hp, hres, -, hle⟩
    · rw [hres] at hsome; cases hsome
    · rw [hres] at hsome
      exact ⟨p, hp, Option.some_inj.mp hsome, hle⟩
  · intro W w s src tg hw hs htext hsrc hc
    have hmap := hids W asciiWordChar src
    rw [hc] at hmap
    have hempty : candidatesW asciiWordChar src = [] := by
      rcases hcand : candidatesW asciiWordChar src with _ | ⟨p, rest⟩
      · rfl
      · rw [hcand] at hmap
        simp at hmap
    have hnone : bestReplyTarget src = none := by
      show bestReplyTargetW asciiWordChar src = none
      rw [bestReplyTargetW_eq_argLoop, hempty]
      rfl
    unfold send_suggestion_as_reply
    rw [hw]
    simp only [hs, hsrc, hnone, if_neg htext]
    simp

/-- Witness for `reply_target_selector_spec` at concrete inputs,
instantiating the classifier at `asciiWordChar` (which trivially agrees
with itself on ASCII). -/
theorem reply_target_selector_spec_witness :
    (bestReplyTargetW asciiWordChar selectorExample1 = some 2 ∧
     bestReplyTargetW asciiWordChar selectorExample2 = some 1) ∧
    (bestReplyTargetW asciiWordChar [] = none ↔ candidatesW asciiWordChar [] = []) ∧
    send_suggestion_as_reply
        ⟨some ⟨10, 3, "hello", .pending, none, some []⟩, none⟩ (.ok 5) =
      send_suggestion ⟨some ⟨10, 3, "hello", .pending, none, some []⟩, none⟩ (.ok 5) :=
  ⟨reply_target_selector_spec.1 asciiWordChar (fun _ _ => rfl),
   reply_target_selector_spec.2.1 asciiWordChar [],
   reply_target_selector_spec.2.2.2.2 asciiWordChar
     ⟨some ⟨10, 3, "hello", .pending, none, some []⟩, none⟩
     ⟨10, 3, "hello", .pending, none, some []⟩ [] (.ok 5)
     rfl rfl (by decide) rfl rfl⟩

/-- C7 counterexample: `tieExample` has exactly two qualifying candidates,
ids 1 and 26, both with the maximal score 25; the selector returns the
earlier one (id 1), not the one evaluated last (id 26). -/
theorem reply_target_tie_goes_to_earlier_cex :
    candidates tieExample = [(1, 25), (26, 25)] ∧
    bestReplyTarget tieExample = some 1 ∧
    bestReplyTarget tieExample ≠ some 26 := by
  refine ⟨by decide, by decide, by decide⟩

/-- C7 (amended): on equal maximal score the candidate evaluated first in
oldest→newest order wins; a later candidate is selected only with a strictly
greater score.  Formally, the selector returns the first candidate whose
score is strictly above every earlier candidate and not below any later
one. -/
theorem reply_target_first_max_wins (src : List SrcEntry)
    (l₁ l₂ : List (Int × Int)) (p : Int × Int)
    (hsplit : candidates src = l₁ ++ p :: l₂)
    (hearlier : ∀ q ∈ l₁, q.2 < p.2) (hlater : ∀ q ∈ l₂, q.2 ≤ p.2) :
    bestReplyTarget src = some p.1 := by
  obtain ⟨i, s⟩ := p
  have hmem : (i, s) ∈ candidates src := by
    rw [hsplit]
    exact List.mem_append.mpr (Or.inr (List.mem_cons_self _ _))
  have hfloor : -10000 < s := candidatesFrom_score_gt_floor src 0 (i, s) hmem
  rw [bestReplyTarget_eq_argLoop, hsplit]
  exact argLoop_firstmax l₁ i s l₂ (-10000) none hfloor hearlier hlater

/-- Witness for `reply_target_first_max_wins` on `tieExample`: the tied
candidates `(1,25)` and `(26,25)` resolve to the earlier id 1. -/
theorem reply_target_first_max_wins_witness :
    bestReplyTarget tieExample = some 1 :=
  reply_target_first_max_wins tieExample [] [(26, 25)] (1, 25)
    (by decide) (by decide) (by decide)

/-! ### Dispatch workflow -/

/-- C8 counterexample: `decline_suggestion` carries no pending-only guard —
declining a suggestion whose current status is `sent` transitions it to
`declined`, so `sent` is not terminal with respect to dispatch. -/
theorem decline_ignores_status_cex :
    (decline_suggestion ⟨some ⟨1, 2, "t", .sent, none, some []⟩, none⟩).sugg =
      some ⟨1, 2, "t", .declined, none, some []⟩ ∧
    SuggestionStatus.sent ≠ SuggestionStatus.pending := by
  exact ⟨rfl, by decide⟩

/-- C8 (amended): the send and send-as-reply operations mutate a suggestion
only from `pending` (a non-pending row is returned untouched, and a pending
row ends in `sent` or `failed`); `decline_suggestion`, however, sets the
status to `declined` whatever the current status is. -/
theorem dispatch_status_transitions :
    (∀ (w : World) (s : SuggRow) (tg : Except String Int),
      w.sugg = some s → s.status ≠ .pending →
      send_suggestion w tg = (w, []) ∧ send_suggestion_as_reply w tg = (w, [])) ∧
    (∀ (w : World) (s : SuggRow), w.sugg = some s →
      (decline_suggestion w).sugg = some (update_suggestion_status s .declined)) ∧
    (∀ (w : World) (s : SuggRow) (tg : Except String Int),
      w.sugg = some s → s.status = .pending →
      ∃ s', (send_suggestion w tg).1.sugg = some s' ∧
        (s'.status = .sent ∨ s'.status = .failed)) := by
  refine ⟨?_, ?_, ?_⟩
  · intro w s tg hw hs
    constructor
    · unfold send_suggestion
      rw [hw]
      simp [hs]
    · unfold send_suggestion_as_reply
      rw [hw]
      simp [hs]
  · intro w s hw
    unfold decline_suggestion
    rw [hw]
    rfl
  · intro w s tg hw hs
    unfold send_suggestion
    rw [hw]
    simp only [hs, ne_eq, not_true_eq_false, if_false]
    by_cases ht : pyStrip s.suggested_text = ""
    · rw [if_pos ht]
      exact ⟨_, rfl, Or.inr rfl⟩
    · rw [if_neg ht]
      cases tg with
      | error e => exact ⟨_, rfl, Or.inr rfl⟩
      | ok m => exact ⟨_, rfl, Or.inl rfl⟩

/-- Witness for `dispatch_status_transitions` at concrete inputs. -/
theorem dispatch_status_transitions_witness :
    (send_suggestion ⟨some ⟨1, 2, "t", .sent, none, some []⟩, none⟩ (.ok 4) =
      (⟨some ⟨1, 2, "t", .sent, none, some []⟩, none⟩, []) ∧
     send_suggestion_as_reply ⟨some ⟨1, 2, "t", .sent, none, some []⟩, none⟩ (.ok 4) =
      (⟨some ⟨1, 2, "t", .sent, none, some []⟩, none⟩, [])) ∧
    (decline_suggestion ⟨some ⟨1, 2, "t", .sent, none, some []⟩, none⟩).sugg =
      some (update_suggestion_status ⟨1, 2, "t", .sent, none, some []⟩ .declined) ∧
    (∃ s', (send_suggestion ⟨some ⟨1, 2, "hi", .pending, none, some []⟩, none⟩ (.ok 4)).1.sugg =
        some s' ∧ (s'.status = .sent ∨ s'.status = .failed)) :=
  ⟨dispatch_status_transitions.1 ⟨some ⟨1, 2, "t", .sent, none, some []⟩, none⟩
      ⟨1, 2, "t", .sent, none, some []⟩ (.ok 4) rfl (by decide),
   dispatch_status_transitions.2.1 ⟨some ⟨1, 2, "t", .sent, none, some []⟩, none⟩
      ⟨1, 2, "t", .sent, none, some []⟩ rfl,
   dispatch_status_transitions.2.2 ⟨some ⟨1, 2, "hi", .pending, none, some []⟩, none⟩
      ⟨1, 2, "hi", .pending, none, some []⟩ (.ok 4) rfl rfl⟩

/-- C10: on a pending suggestion whose stored text strips to empty, both
send routes issue no connector call, set the row to `failed` with the error
message `Empty suggested_text; nothing to send.`, and leave the watermark
untouched. -/
theorem send_empty_text_fails_without_send
    (w : World) (s : SuggRow) (tg : Except String Int)
    (hw : w.sugg = some s) (hs : s.status = .pending)
    (ht : pyStrip s.suggested_text = "") :
    send_suggestion w tg =
      ({ w with sugg := some (update_suggestion_status s .failed
          (some "Empty suggested_text; nothing to send.")) }, []) ∧
    send_suggestion_as_reply w tg =
      ({ w with sugg := some (update_suggestion_status s .failed
          (some "Empty suggested_text; nothing to send.")) }, []) ∧
    (send_suggestion w tg).1.last_seen_message_id = w.last_seen_message_id ∧
    (send_suggestion_as_reply w tg).1.last_seen_message_id = w.last_seen_message_id := by
  have h1 : send_suggestion w tg =
      ({ w with sugg := some (update_suggestion_status s .failed
          (some "Empty suggested_text; nothing to send.")) }, []) := by
    unfold send_suggestion
    rw [hw]
    simp [hs, ht]
  have h2 : send_suggestion_as_reply w tg =
      ({ w with sugg := some (update_suggestion_status s .failed
          (some "Empty suggested_text; nothing to send.")) }, []) := by
    unfold send_suggestion_as_reply
    rw [hw]
    simp [hs, ht]
  exact ⟨h1, h2, by rw [h1], by rw [h2]⟩

/-- Witness for `send_empty_text_fails_without_send`: a pending suggestion
whose text is whitespace-only. -/
theorem send_empty_text_fails_without_send_witness :
    send_suggestion ⟨some ⟨1, 2, "  ", .pending, none, some []⟩, some 9⟩ (.ok 3) =
      (⟨some ⟨1, 2, "  ", .failed,
          some "Empty suggested_text; nothing to send.", some []⟩, some 9⟩, []) ∧
    (send_suggestion_as_reply ⟨some ⟨1, 2, "  ", .pending, none, some []⟩, some 9⟩
        (.ok 3)).1.last_seen_message_id = some 9 := by
  have h := send_empty_text_fails_without_send
    ⟨some ⟨1, 2, "  ", .pending, none, some []⟩, some 9⟩
    ⟨1, 2, "  ", .pending, none, some []⟩ (.ok 3) rfl rfl (by decide)
  exact ⟨h.1, h.2.2.2⟩

/-- C1 counterexample: `update_chat_last_seen_message_id` overwrites the
stored watermark unconditionally, and the dispatch workflow writes the sent
message's id as-is — here a send returning message id 3 lowers a watermark
that was 5, so neither the update operation nor the dispatch write is
advance-only. -/
theorem watermark_not_advance_only_cex :
    update_chat_last_seen_message_id (some 5) 3 = some 3 ∧
    (send_suggestion ⟨some ⟨1, 2, "hi", .pending, none, some []⟩, some 5⟩
        (.ok 3)).1.last_seen_message_id = some 3 ∧
    (3 : Int) < 5 := by
  exact ⟨rfl, by decide, by decide⟩

/-! ### Cycle engine -/

theorem dedup_guard_advance (chat : ChatRecord) (latest : Int)
    (g : ¬ ((match chat.last_seen_message_id with
             | some seen => decide (latest ≤ seen)
             | none => false) = true)) :
    chat.last_seen_message_id = none ∨
      ∃ old, chat.last_seen_message_id = some old ∧ old < latest := by
  rcases hseen : chat.last_seen_message_id with _ | seen
  · exact Or.inl rfl
  · right
    refine ⟨seen, rfl, ?_⟩
    rw [hseen] at g
    simp only [decide_eq_true_eq] at g
    omega

theorem processChatBody_setWatermark (st : SettingsRecord) (chat : ChatRecord)
    (env : ChatEnv) (c v : Int)
    (h : DbAction.setWatermark c v ∈ (processChatBody st chat env).1) :
    c = chat.id ∧
      (chat.last_seen_message_id = none ∨
        ∃ old, chat.last_seen_message_id = some old ∧ old < v) := by
  unfold processChatBody at h
  by_cases h1 : st.max_suggestions_per_chat ≤ env.pending_count
  · rw [if_pos h1] at h; simp at h
  · rw [if_neg h1] at h
    by_cases h2 : cooldownBlocked st env = true
    · rw [if_pos h2] at h; simp at h
    · rw [if_neg h2] at h
      rcases hf : env.fetch with e | messages
      · rw [hf] at h; simp at h
      · rw [hf] at h
        dsimp only at h
        by_cases hm : messages = []
        · rw [if_pos hm] at h; simp at h
        · rw [if_neg hm] at h
          by_cases hsrc : buildSource messages = []
          · rw [if_pos hsrc] at h; simp at h
          · rw [if_neg hsrc] at h
            by_cases hg : (match chat.last_seen_message_id with
                | some seen => decide (latestId (buildSource messages) ≤ seen)
                | none => false) = true
            · rw [if_pos hg] at h; simp at h
            · rw [if_neg hg] at h
              by_cases hlast : ((buildSource messages).getLast?).map
                  SourceMessage.from_me = some true
              · rw [if_pos hlast] at h
                rcases hwm : env.watermark_err with _ | e
                · rw [hwm] at h
                  simp at h
                  exact ⟨h.1, h.2 ▸ dedup_guard_advance chat _ hg⟩
                · rw [hwm] at h; simp at h
              · rw [if_neg hlast] at h
                rcases hllm : env.llm with e | reply
                · rw [hllm] at h; simp at h
                · rw [hllm] at h
                  dsimp only at h
                  rcases hins : env.insert_err with _ | e
                  · rw [hins] at h
                    rcases hwm : env.watermark_err with _ | e2
                    · rw [hwm] at h
                      simp at h
                      exact ⟨h.1, h.2 ▸ dedup_guard_advance chat _ hg⟩
                    · rw [hwm] at h; simp at h
                  · rw [hins] at h; simp at h

theorem setWatermark_mem_body (st : SettingsRecord) (chat : ChatRecord)
    (env : ChatEnv) (c v : Int)
    (h : DbAction.setWatermark c v ∈ processChat st chat env) :
    DbAction.setWatermark c v ∈ (processChatBody st chat env).1 := by
  unfold processChat at h
  rcases hb : processChatBody st chat env with ⟨acts, err⟩
  rw [hb] at h
  dsimp only at h ⊢
  rcases err with _ | e
  · exact h
  · rcases hfi : env.failed_insert_err with _ | f
    · rw [hfi] at h
      dsimp only at h ⊢
      simp only [List.mem_append, List.mem_singleton, failedRecord] at h
      rcases h with h | h
      · exact h
      · cases h
    · rw [hfi] at h
      exact h

/-- C1 (amended): every watermark write performed by the cycle engine
targets the thread being processed and strictly increases its stored
watermark (or sets it when previously unset).  The counterexample
`watermark_not_advance_only_cex` shows the update operation itself and the
dispatch workflow are not advance-only. -/
theorem cycle_watermark_strictly_advances (tga oe : Bool) (st : SettingsRecord)
    (chats : List (ChatRecord × ChatEnv)) (c v : Int)
    (h : DbAction.setWatermark c v ∈ generate_suggestions_cycle tga oe st chats) :
    ∃ ce ∈ chats, c = ce.1.id ∧
      (ce.1.last_seen_message_id = none ∨
        ∃ old, ce.1.last_seen_message_id = some old ∧ old < v) := by
  unfold generate_suggestions_cycle at h
  cases tga with
  | false => simp at h
  | true =>
    cases oe with
    | false => simp at h
    | true =>
      by_cases hce : chats.isEmpty
      · simp [hce] at h
      · rw [if_neg (by decide : ¬ ((!true) = true)),
            if_neg (by decide : ¬ ((!true) = true)), if_neg hce] at h
        rw [List.mem_flatten] at h
        obtain ⟨l, hl, hmem⟩ := h
        obtain ⟨ce, hcem, rfl⟩ := List.mem_map.mp hl
        exact ⟨ce, hcem,
          processChatBody_setWatermark st ce.1 ce.2 c v
            (setWatermark_mem_body st ce.1 ce.2 c v hmem)⟩

/-- Witness for `cycle_watermark_strictly_advances`: one selected chat with
watermark 4 whose thread receives a new incoming message 10; the cycle's
write is `setWatermark` with the strictly larger id 10. -/
theorem cycle_watermark_strictly_advances_witness :
    ∃ ce ∈ [((⟨7, "", none, some 4⟩ : ChatRecord),
             ({ pending_count := 0,
                fetch := .ok [⟨10, "hey", false, ""⟩],
                llm := .ok ⟨"s", "r", none⟩ } : ChatEnv))],
      (7 : Int) = ce.1.id ∧
      (ce.1.last_seen_message_id = none ∨
        ∃ old, ce.1.last_seen_message_id = some old ∧ old < 10) :=
  cycle_watermark_strictly_advances true true {}
    [(⟨7, "", none, some 4⟩,
      { pending_count := 0,
        fetch := .ok [⟨10, "hey", false, ""⟩],
        llm := .ok ⟨"s", "r", none⟩ })] 7 10 (by decide)

theorem processChatBody_shape (st : SettingsRecord) (chat : ChatRecord)
    (env : ChatEnv) :
    (processChatBody st chat env).1 = [] ∨
    (∃ v : Int, (processChatBody st chat env).1 = [DbAction.setWatermark chat.id v]) ∨
    (∃ (src : List SourceMessage) (r : ReplySuggestion),
      (processChatBody st chat env).1 =
        [DbAction.createSuggestion chat.id src r.suggested_text r.ru_translation
          .pending none]) ∨
    (∃ (src : List SourceMessage) (r : ReplySuggestion) (v : Int),
      (processChatBody st chat env).1 =
        [DbAction.createSuggestion chat.id src r.suggested_text r.ru_translation
          .pending none, DbAction.setWatermark chat.id v]) := by
  unfold processChatBody
  by_cases h1 : st.max_suggestions_per_chat ≤ env.pending_count
  · rw [if_pos h1]; exact Or.inl rfl
  · rw [if_neg h1]
    by_cases h2 : cooldownBlocked st env = true
    · rw [if_pos h2]; exact Or.inl rfl
    · rw [if_neg h2]
      rcases hf : env.fetch with e | messages
      · exact Or.inl rfl
      · dsimp only
        by_cases hm : messages = []
        · rw [if_pos hm]; exact Or.inl rfl
        · rw [if_neg hm]
          by_cases hsrc : buildSource messages = []
          · rw [if_pos hsrc]; exact Or.inl rfl
          · rw [if_neg hsrc]
            by_cases hg : (match chat.last_seen_message_id with
                | some seen => decide (latestId (buildSource messages) ≤ seen)
                | none => false) = true
            · rw [if_pos hg]; exact Or.inl rfl
            · rw [if_neg hg]
              by_cases hlast : ((buildSource messages).getLast?).map
                  SourceMessage.from_me = some true
              · rw [if_pos hlast]
                rcases hwm : env.watermark_err with _ | e
                · exact Or.inr (Or.inl ⟨latestId (buildSource messages), rfl⟩)
                · exact Or.inl rfl
              · rw [if_neg hlast]
                rcases hllm : env.llm with e | reply
                · exact Or.inl rfl
                · dsimp only
                  rcases hins : env.insert_err with _ | e
                  · rcases hwm : env.watermark_err with _ | e2
                    · exact Or.inr (Or.inr (Or.inr
                        ⟨buildSource messages, reply, latestId (buildSource messages), rfl⟩))
                    · exact Or.inr (Or.inr (Or.inl ⟨buildSource messages, reply, rfl⟩))
                  · exact Or.inl rfl

theorem pendingCreatedCount_body_le_one (st : SettingsRecord) (chat : ChatRecord)
    (env : ChatEnv) :
    pendingCreatedCount (processChatBody st chat env).1 ≤ 1 := by
  rcases processChatBody_shape st chat env with h | ⟨v, h⟩ | ⟨src, r, h⟩ | ⟨src, r, v, h⟩ <;>
    rw [h] <;> simp [pendingCreatedCount, List.filter, isPendingCreate]

theorem pendingCreatedCount_processChat_le_one (st : SettingsRecord)
    (chat : ChatRecord) (env : ChatEnv) :
    pendingCreatedCount (processChat st chat env) ≤ 1 := by
  have hb := pendingCreatedCount_body_le_one st chat env
  unfold processChat
  rcases hp : processChatBody st chat env with ⟨acts, err⟩
  rw [hp] at hb
  dsimp only at hb ⊢
  rcases err with _ | e
  · exact hb
  · rcases hfi : env.failed_insert_err with _ | f
    · dsimp only
      have : pendingCreatedCount (acts ++ [failedRecord chat e]) =
          pendingCreatedCount acts := by
        simp [pendingCreatedCount, List.filter_append, failedRecord, List.filter,
          isPendingCreate]
      rw [this]
      exact hb
    · exact hb

/-- C2: a thread whose pending-suggestion count already meets
`max_suggestions_per_chat` is skipped before any work, producing no
suggestion rows at all; and since an iteration inserts at most one pending
row (only after passing the quota check), a thread at or below the quota
stays at or below it. -/
theorem cycle_respects_pending_quota (st : SettingsRecord) (chat : ChatRecord)
    (env : ChatEnv) :
    (st.max_suggestions_per_chat ≤ env.pending_count →
      processChat st chat env = []) ∧
    (env.pending_count ≤ st.max_suggestions_per_chat →
      env.pending_count + pendingCreatedCount (processChat st chat env) ≤
        st.max_suggestions_per_chat) := by
  have hskip : st.max_suggestions_per_chat ≤ env.pending_count →
      processChat st chat env = [] := by
    intro h1
    have hb : processChatBody st chat env = ([], none) := by
      unfold processChatBody
      rw [if_pos h1]
    unfold processChat
    rw [hb]
  refine ⟨hskip, ?_⟩
  intro h2
  by_cases h1 : st.max_suggestions_per_chat ≤ env.pending_count
  · rw [hskip h1]
    simp [pendingCreatedCount, List.filter]
    omega
  · have := pendingCreatedCount_processChat_le_one st chat env
    omega

/-- Witness for `cycle_respects_pending_quota`: a thread already holding
`max_suggestions_per_chat = 1` pending suggestion is skipped entirely. -/
theorem cycle_respects_pending_quota_witness :
    processChat {} ⟨7, "", none, none⟩ { pending_count := 1 } = [] ∧
    1 + pendingCreatedCount (processChat {} ⟨7, "", none, none⟩ { pending_count := 1 }) ≤ 1 :=
  ⟨(cycle_respects_pending_quota {} ⟨7, "", none, none⟩ { pending_count := 1 }).1
      (by decide),
   (cycle_respects_pending_quota {} ⟨7, "", none, none⟩ { pending_count := 1 }).2
      (by decide)⟩

/-- C3: an exception escaping the per-thread body is caught and converted
into a suggestion row with status `failed`, empty source payload, empty
suggested text and translation, and the exception message in the error
field; if even that insert raises, it is swallowed; and the cycle always
continues with the remaining threads, whatever one thread's iteration did. -/
theorem cycle_failure_isolation :
    (∀ (st : SettingsRecord) (chat : ChatRecord) (env : ChatEnv)
        (acts : List DbAction) (e : String),
      processChatBody st chat env = (acts, some e) →
      env.failed_insert_err = none →
      processChat st chat env =
        acts ++ [DbAction.createSuggestion chat.id [] "" "" .failed (some e)]) ∧
    (∀ (st : SettingsRecord) (chat : ChatRecord) (env : ChatEnv)
        (acts : List DbAction) (e f : String),
      processChatBody st chat env = (acts, some e) →
      env.failed_insert_err = some f →
      processChat st chat env = acts) ∧
    (∀ (st : SettingsRecord) (ce : ChatRecord × ChatEnv)
        (rest : List (ChatRecord × ChatEnv)),
      generate_suggestions_cycle true true st (ce :: rest) =
        processChat st ce.1 ce.2 ++ generate_suggestions_cycle true true st rest) := by
  refine ⟨?_, ?_, ?_⟩
  · intro st chat env acts e hb hfi
    unfold processChat
    rw [hb]
    dsimp only
    rw [hfi]
    rfl
  · intro st chat env acts e f hb hfi
    unfold processChat
    rw [hb]
    dsimp only
    rw [hfi]
  · intro st ce rest
    unfold generate_suggestions_cycle
    rw [if_neg (by decide : ¬ ((!true) = true)),
        if_neg (by decide : ¬ ((!true) = true)),
        if_neg (by decide : ¬ ((!true) = true)),
        if_neg (by decide : ¬ ((!true) = true)),
        if_neg (by simp : ¬ ((ce :: rest).isEmpty = true))]
    cases rest with
    | nil => simp
    | cons ce2 rest2 =>
      rw [if_neg (by simp : ¬ ((ce2 :: rest2).isEmpty = true))]
      simp

/-- Witness for `cycle_failure_isolation`: a thread whose message fetch
raises gets a failed record appended, and the cycle goes on to process the
rest of the list. -/
theorem cycle_failure_isolation_witness :
    processChat {} ⟨7, "", none, none⟩ { pending_count := 0, fetch := .error "boom" } =
      [] ++ [DbAction.createSuggestion 7 [] "" "" .failed (some "boom")] ∧
    generate_suggestions_cycle true true {}
        [(⟨7, "", none, none⟩, { pending_count := 0, fetch := .error "boom" })] =
      processChat {} ⟨7, "", none, none⟩ { pending_count := 0, fetch := .error "boom" } ++
        generate_suggestions_cycle true true {} [] :=
  ⟨cycle_failure_isolation.1 {} ⟨7, "", none, none⟩
      { pending_count := 0, fetch := .error "boom" } [] "boom" (by decide) rfl,
   cycle_failure_isolation.2.2 {}
      (⟨7, "", none, none⟩, { pending_count := 0, fetch := .error "boom" }) []⟩

/-! ### Completion backend client: retries -/

theorem runAttempts_success {α : Type} (o : Nat → Except TransientError α) (v : α) :
    ∀ (k start fuel : Nat), k ≤ fuel →
      (∀ i, i < k → ∃ e, o (start + i) = .error e) →
      o (start + k) = .ok v →
      runAttempts o start fuel =
        (.ok v, (List.range' start k).map backoffDelay, k + 1) := by
  intro k
  induction k with
  | zero =>
    intro start fuel _ _ hok
    rw [Nat.add_zero] at hok
    unfold runAttempts
    rw [hok]
    rfl
  | succ k ih =>
    intro start fuel hk hfail hok
    obtain ⟨e, he⟩ := hfail 0 (Nat.succ_pos k)
    rw [Nat.add_zero] at he
    unfold runAttempts
    rw [he]
    cases fuel with
    | zero => omega
    | succ f =>
      dsimp only
      have ih' := ih (start + 1) f (by omega)
        (fun i hi => by
          have := hfail (i + 1) (by omega)
          rwa [show start + (i + 1) = start + 1 + i by omega] at this)
        (by rwa [show start + 1 + k = start + (k + 1) by omega])
      rw [ih']
      simp [List.range'_succ]

theorem runAttempts_exhaust {α : Type} (o : Nat → Except TransientError α)
    (e : TransientError) :
    ∀ (fuel start : Nat),
      (∀ i, i < fuel → ∃ e2, o (start + i) = .error e2) →
      o (start + fuel) = .error e →
      runAttempts o start fuel =
        (.error e, (List.range' start (fuel + 1)).map backoffDelay, fuel + 1) := by
  intro fuel
  induction fuel with
  | zero =>
    intro start _ hlast
    rw [Nat.add_zero] at hlast
    unfold runAttempts
    rw [hlast]
    rfl
  | succ f ih =>
    intro start hfail hlast
    obtain ⟨e2, he2⟩ := hfail 0 (by omega)
    rw [Nat.add_zero] at he2
    unfold runAttempts
    rw [he2]
    dsimp only
    have ih' := ih (start + 1)
      (fun i hi => by
        have := hfail (i + 1) (by omega)
        rwa [show start + (i + 1) = start + 1 + i by omega] at this)
      (by rwa [show start + 1 + f = start + (f + 1) by omega])
    rw [ih']
    simp [List.range'_succ]

/-- C4: an unconfigured client fails immediately with zero attempts and no
backoff; a configured client retries transient failures, returning the
first success after `k ≤ max_retries` failures with exactly the `k` backoff
sleeps `min(8, 2^attempt)` for attempts `0..k-1`, and after `max_retries+1`
failed attempts re-raises the last transient error; each backoff delay is
`min(8, 2^attempt)` and hence capped at 8 seconds; in particular with
`max_retries = 2` and two transient failures before a success, the value is
returned after exactly 2 backoff delays. -/
theorem request_json_retry_policy :
    (∀ (α : Type) (max_retries : Nat) (o : Nat → Except TransientError α),
      request_json false max_retries o = (.error .notConfigured, [], 0)) ∧
    (∀ (α : Type) (max_retries k : Nat) (o : Nat → Except TransientError α) (v : α),
      k ≤ max_retries → (∀ i, i < k → ∃ e, o i = .error e) → o k = .ok v →
      request_json true max_retries o =
        (.ok v, (List.range' 0 k).map backoffDelay, k + 1)) ∧
    (∀ (α : Type) (max_retries : Nat) (o : Nat → Except TransientError α)
        (e : TransientError),
      (∀ i, i < max_retries → ∃ e2, o i = .error e2) → o max_retries = .error e →
      request_json true max_retries o =
        (.error (.transient e), (List.range' 0 (max_retries + 1)).map backoffDelay,
         max_retries + 1)) ∧
    (∀ attempt, backoffDelay attempt = min 8 (2 ^ attempt) ∧ backoffDelay attempt ≤ 8) ∧
    request_json true 2 (fun i => if i < 2 then .error .rateLimit else .ok (37 : Nat)) =
      (.ok 37, [1, 2], 3) := by
  refine ⟨?_, ?_, ?_, ?_, rfl⟩
  · intro α max_retries o
    rfl
  · intro α max_retries k o v hk hfail hok
    have hr := runAttempts_success o v k 0 max_retries hk
      (fun i hi => by simpa using hfail i hi) (by simpa using hok)
    unfold request_json
    rw [if_pos rfl, hr]
  · intro α max_retries o e hfail hlast
    have hr := runAttempts_exhaust o e max_retries 0
      (fun i hi => by simpa using hfail i hi) (by simpa using hlast)
    unfold request_json
    rw [if_pos rfl, hr]
  · intro attempt
    exact ⟨rfl, Nat.min_le_left _ _⟩

/-- Witness for `request_json_retry_policy` at concrete inputs. -/
theorem request_json_retry_policy_witness :
    request_json false 3 (fun _ => .ok (0 : Nat)) = (.error .notConfigured, [], 0) ∧
    request_json true 2 (fun i => if i < 2 then .error .rateLimit else .ok (37 : Nat)) =
      (.ok 37, (List.range' 0 2).map backoffDelay, 3) ∧
    request_json true 1 (fun _ => (.error .apiTimeout : Except TransientError Nat)) =
      (.error (.transient .apiTimeout), (List.range' 0 2).map backoffDelay, 2) ∧
    backoffDelay 5 ≤ 8 :=
  ⟨request_json_retry_policy.1 Nat 3 (fun _ => .ok 0),
   request_json_retry_policy.2.1 Nat 2 2
     (fun i => if i < 2 then .error .rateLimit else .ok 37) 37
     (by decide) (fun i hi => ⟨.rateLimit, by simp [hi]⟩) rfl,
   request_json_retry_policy.2.2.1 Nat 1 (fun _ => .error .apiTimeout) .apiTimeout
     (fun i _ => ⟨.apiTimeout, rfl⟩) rfl,
   (request_json_retry_policy.2.2.2.1 5).2⟩

/-! ### Completion backend client: token-parameter negotiation -/

/-- C5: the client's first call uses the cached token-budget parameter name
when present, and otherwise the model-name-pattern guess; a successful first
call with a cached name makes exactly one backend call; a `BadRequestError`
whose message names the wrong token-budget parameter causes exactly one
re-issued call with the alternate parameter name, whose result is returned
directly (so a successful retry surfaces no error), and the flipped choice
is cached on the client state for subsequent calls. -/
theorem request_once_token_param_negotiation :
    (∀ st : ClientState, st.token_param = none →
      (mkCall st).token_param = guessTokenParam st.model) ∧
    (∀ (α : Type) (st : ClientState) (backend : BackendCall → BackendResp α),
      ∃ rest, (request_once st backend).2.2 = mkCall st :: rest) ∧
    (∀ (α : Type) (st : ClientState) (backend : BackendCall → BackendResp α)
        (t : TokenParam) (v : α),
      st.token_param = some t → backend (mkCall st) = .ok v →
      request_once st backend = (.ok v, { st with token_param := some t }, [mkCall st])) ∧
    (∀ (α : Type) (st : ClientState) (backend : BackendCall → BackendResp α)
        (msg : String),
      backend (mkCall st) = .badRequest msg →
      strContains msg "max_tokens" = true →
      strContains msg "max_completion_tokens" = true →
      (strContains msg needle_mt_not_supported = true ∨
        strContains msg needle_use_mct = true) →
      request_once st backend =
        (liftResp (backend { mkCall st with token_param := .max_completion_tokens }),
         { st with token_param := some .max_completion_tokens },
         [mkCall st, { mkCall st with token_param := .max_completion_tokens }])) ∧
    (∀ (α : Type) (st : ClientState) (backend : BackendCall → BackendResp α)
        (msg : String),
      backend (mkCall st) = .badRequest msg →
      strContains msg "max_tokens" = true →
      strContains msg "max_completion_tokens" = true →
      strContains msg needle_mt_not_supported = false →
      strContains msg needle_use_mct = false →
      (strContains msg needle_mct_not_supported = true ∨
        strContains msg needle_use_mt = true) →
      request_once st backend =
        (liftResp (backend { mkCall st with token_param := .max_tokens }),
         { st with token_param := some .max_tokens },
         [mkCall st, { mkCall st with token_param := .max_tokens }])) := by
  refine ⟨?_, ?_, ?_, ?_, ?_⟩
  · intro st h
    simp [mkCall, h]
  · intro α st backend
    unfold request_once
    dsimp only
    cases hb : backend (mkCall st) with
    | ok v => exact ⟨[], rfl⟩
    | failed e => exact ⟨[], rfl⟩
    | badRequest msg =>
      dsimp only
      split_ifs <;> exact ⟨_, rfl⟩
  · intro α st backend t v h hb
    have hproj : (mkCall st).token_param = t := by simp [mkCall, h]
    unfold request_once
    dsimp only
    rw [hb, hproj]
  · intro α st backend msg hb h1 h2 hflip
    unfold request_once
    dsimp only
    rw [hb]
    dsimp only
    rw [if_pos (by rw [h1, h2]; rfl)]
    rcases hflip with h3 | h3 <;>
      rw [if_pos (by rw [h3]; simp)]
  · intro α st backend msg hb h1 h2 h3 h4 hflip
    unfold request_once
    dsimp only
    rw [hb]
    dsimp only
    rw [if_pos (by rw [h1, h2]; rfl)]
    rw [if_neg (by rw [h3, h4]; simp)]
    rcases hflip with h5 | h5 <;>
      rw [if_pos (by rw [h5]; simp)]

/-- Witness for `request_once_token_param_negotiation`: a fresh client for
model `gpt-4o` guesses `max_tokens`, is rejected with the canonical
wrong-parameter message, retries once with `max_completion_tokens`, returns
the retried result, and caches the flipped choice. -/
theorem request_once_token_param_negotiation_witness :
    (mkCall { model := "gpt-4o" }).token_param = guessTokenParam "gpt-4o" ∧
    request_once { model := "gpt-4o" } negotiationBackend =
      (liftResp (negotiationBackend
          { mkCall { model := "gpt-4o" } with token_param := .max_completion_tokens }),
       { model := "gpt-4o", token_param := some .max_completion_tokens },
       [mkCall { model := "gpt-4o" },
        { mkCall { model := "gpt-4o" } with token_param := .max_completion_tokens }]) ∧
    request_once { model := "gpt-4o", token_param := some .max_completion_tokens }
        negotiationBackend =
      (.ok 7, { model := "gpt-4o", token_param := some .max_completion_tokens },
       [mkCall { model := "gpt-4o", token_param := some .max_completion_tokens }]) :=
  ⟨request_once_token_param_negotiation.1 { model := "gpt-4o" } rfl,
   request_once_token_param_negotiation.2.2.2.1 Nat { model := "gpt-4o" }
     negotiationBackend wrongParamMsg rfl (by decide) (by decide)
     (Or.inr (by decide)),
   request_once_token_param_negotiation.2.2.1 Nat
     { model := "gpt-4o", token_param := some .max_completion_tokens }
     negotiationBackend .max_completion_tokens 7 rfl rfl⟩

/-! ### Scheduler single-flight lock -/

/-- The inductive invariant: a task inside the cycle-engine body holds the
lock, and a task's cycle counter is 0 before it first enters the body and 1
from then on. -/
def SchedInv (s : SchedState) : Prop :=
  (∀ i, s.pc i = .body → s.lock = some i) ∧
  (∀ i, s.cycles i = if s.pc i = .idle ∨ s.pc i = .waiting then 0 else 1)

theorem sched_inv_start : SchedInv SchedState.start := by
  constructor
  · intro i h
    simp [SchedState.start] at h
  · intro i
    simp [SchedState.start]

theorem sched_inv_step {s t : SchedState} (hs : SchedInv s) (hstep : SchedStep s t) :
    SchedInv t := by
  obtain ⟨hlock, hcyc⟩ := hs
  cases hstep with
  | call i s hidle =>
    constructor
    · intro j hj
      dsimp only at hj ⊢
      by_cases hij : j = i
      · subst hij
        rw [Function.update_same] at hj
        cases hj
      · rw [Function.update_noteq hij] at hj
        exact hlock j hj
    · intro j
      dsimp only
      by_cases hij : j = i
      · subst hij
        simp [Function.update_same, hcyc j, hidle]
      · simp [Function.update_noteq hij, hcyc j]
  | acquire i s hwait hfree =>
    constructor
    · intro j hj
      dsimp only at hj ⊢
      by_cases hij : j = i
      · subst hij; rfl
      · rw [Function.update_noteq hij] at hj
        have := hlock j hj
        rw [this] at hfree
        cases hfree
    · intro j
      dsimp only
      by_cases hij : j = i
      · subst hij
        simp [Function.update_same, hcyc j, hwait]
      · simp [Function.update_noteq hij, hcyc j]
  | release i s hbody =>
    constructor
    · intro j hj
      dsimp only at hj ⊢
      by_cases hij : j = i
      · subst hij
        rw [Function.update_same] at hj
        cases hj
      · rw [Function.update_noteq hij] at hj
        have hj' := hlock j hj
        have hi' := hlock i hbody
        rw [hj'] at hi'
        cases hi'
        exact absurd rfl hij
    · intro j
      dsimp only
      by_cases hij : j = i
      · subst hij
        simp [Function.update_same, hcyc j, hbody]
      · simp [Function.update_noteq hij, hcyc j]

theorem sched_reachable_inv {s : SchedState} (h : SchedReachable s) : SchedInv s := by
  induction h with
  | start => exact sched_inv_start
  | step _ hstep ih => exact sched_inv_step ih hstep

/-- C9: in every reachable state of two concurrent `run_once` callers, the
two tasks are never inside the cycle-engine body at the same time (the
non-reentrant lock admits a single holder), and a caller that has completed
`run_once` executed the cycle engine itself exactly once — it ran a fresh
cycle rather than observing a cached result. -/
theorem run_once_mutual_exclusion (s : SchedState) (h : SchedReachable s) :
    ¬ (s.pc false = .body ∧ s.pc true = .body) ∧
    (∀ i, s.pc i = .body → s.cycles i = 1) ∧
    (∀ i, s.pc i = .done → s.cycles i = 1) := by
  obtain ⟨hlock, hcyc⟩ := sched_reachable_inv h
  refine ⟨?_, ?_, ?_⟩
  · rintro ⟨h0, h1⟩
    have e0 := hlock false h0
    have e1 := hlock true h1
    rw [e0] at e1
    cases e1
  · intro i hi
    rw [hcyc i, hi]
    simp
  · intro i hi
    rw [hcyc i, hi]
    simp

/-- Witness for `run_once_mutual_exclusion` at the initial state. -/
theorem run_once_mutual_exclusion_witness :
    ¬ (SchedState.start.pc false = .body ∧ SchedState.start.pc true = .body) ∧
    (∀ i, SchedState.start.pc i = .body → SchedState.start.cycles i = 1) ∧
    (∀ i, SchedState.start.pc i = .done → SchedState.start.cycles i = 1) :=
  run_once_mutual_exclusion SchedState.start SchedReachable.start

end Tgent
